import Mathlib

/-!
Shallow embedding of the tree-walking evaluator in `src/eval/mod.rs` of the
`monkey` repository.

The evaluator consumes an AST (`Expr`, `Statement`) produced by an external
parser that is not part of the evaluated core; the AST shape below is taken
from the evaluator's own pattern matches together with the spec's data model
(integer/boolean literals, unary prefix, binary infix, conditional, plus the
variants that fall into the evaluator's "not implemented" / "unsupported"
arms: identifier expressions and let statements).

Rust `panic!` aborts the whole evaluation with a message and no partial
result; it is embedded as `Except.error msg`.  The `Integer` payload is the
source's `i32`; the spec leaves two's-complement overflow of `+`, `-`, `*`
and negation unspecified / implementation-defined (checked in debug builds,
wrapping in release builds), so the payload is modelled as unbounded `Int`
and those operators as the corresponding `Int` operations.  Division is the
one arithmetic primitive whose error paths are identical in every build
profile: Rust's `/` on `i32` truncates toward zero, panics on a zero
divisor, and panics on quotient overflow, which for `i32` happens exactly
at `i32::MIN / -1` (`-2147483648 / -1`); both panics are embedded as
explicit error branches of the `Divide` arm.
-/

namespace Monkey

/-- Unary prefix operators (`Prefix` in the Rust source: `Bang`, `Minus`). -/
inductive PrefixOp where
  | Bang
  | Minus
deriving DecidableEq, Repr

/-- Binary infix operators (`Operator` in the Rust source). -/
inductive Operator where
  | Plus
  | Minus
  | Multiply
  | Divide
  | LessThan
  | GreaterThan
  | Equals
  | NotEquals
deriving DecidableEq, Repr

mutual
/-- Modelled from the spec: expression nodes of the parser (not under the
evaluated core).  `Const`/`Boolean` literals, unary prefix application,
binary infix application, conditional with consequence and alternative
statement sequences, and an identifier variant which the evaluator leaves
unimplemented. -/
inductive Expr where
  | Const (num : Int)
  | Boolean (val : Bool)
  | Pre (op : PrefixOp) (value : Expr)
  | Infx (left : Expr) (operator : Operator) (right : Expr)
  | If (condition : Expr) (consequence : List Statement) (alternative : List Statement)
  | Ident (name : String)

/-- Modelled from the spec: statement nodes of the parser (not under the
evaluated core).  Expression statements, return statements, and a let
variant which the evaluator treats as an unsupported statement. -/
inductive Statement where
  | Expression (e : Expr)
  | Return (value : Expr)
  | Let (name : String) (value : Expr)
end

/-- Result values (`Object` in the Rust source): a closed tagged union of
Integer, Boolean, Null and the Return wrapper. -/
inductive Object where
  | Integer (n : Int)
  | Boolean (b : Bool)
  | Null
  | Return (o : Object)
deriving DecidableEq, Repr

/-- `true` exactly on Return-tagged objects (the `Object::Return(_)` test). -/
def isReturn : Object → Bool
  | .Return _ => true
  | _ => false

/-- `true` exactly on Integer objects. -/
def isInteger : Object → Bool
  | .Integer _ => true
  | _ => false

/-- `true` exactly on Boolean objects. -/
def isBoolean : Object → Bool
  | .Boolean _ => true
  | _ => false

/-- The per-operator branch bodies of `eval_expr`'s `Expr::Infix` arms: both
operands have already been evaluated; dispatch on the operator and the
operand variants exactly as the Rust `match` arms do, with each wildcard arm
a `panic!` (embedded as an error).  Division is Rust `i32` division:
truncation toward zero, a panic on a zero divisor, and a panic on quotient
overflow — which for `i32` occurs exactly at `i32::MIN / -1` — both
surfaced by the division primitive itself in every build profile. -/
def eval_infix_op : Operator → Object → Object → Except String Object
  | .Plus, .Integer left, .Integer right => .ok (.Integer (left + right))
  | .Plus, _, _ => .error "plus operator only valid on integer types"
  | .Minus, .Integer left, .Integer right => .ok (.Integer (left - right))
  | .Minus, _, _ => .error "minus operator only valid on integer types"
  | .Multiply, .Integer left, .Integer right => .ok (.Integer (left * right))
  | .Multiply, _, _ => .error "multiply operator only valid on integer types"
  | .Divide, .Integer left, .Integer right =>
      if right = 0 then .error "attempt to divide by zero"
      else if left = -2147483648 ∧ right = -1 then .error "attempt to divide with overflow"
      else .ok (.Integer (Int.tdiv left right))
  | .Divide, _, _ => .error "divide operator only valid on integer types"
  | .LessThan, .Integer left, .Integer right => .ok (.Boolean (left < right))
  | .LessThan, _, _ => .error "less than operator only valid on integer types"
  | .GreaterThan, .Integer left, .Integer right => .ok (.Boolean (left > right))
  | .GreaterThan, _, _ => .error "greater than operator only valid on integer types"
  | .Equals, .Integer left, .Integer right => .ok (.Boolean (left = right))
  | .Equals, .Boolean left, .Boolean right => .ok (.Boolean (left = right))
  | .Equals, _, _ => .error "equals operator used on invalid types"
  | .NotEquals, .Integer left, .Integer right => .ok (.Boolean (left ≠ right))
  | .NotEquals, .Boolean left, .Boolean right => .ok (.Boolean (left ≠ right))
  | .NotEquals, _, _ => .error "not equals operator used on invalid types"

mutual
/-- `eval_expr` from `src/eval/mod.rs`: dispatch on the expression variant;
literals evaluate to themselves, prefix and infix applications evaluate
their operands and require the variants the Rust `match` arms require,
conditionals compare the condition's value against exactly
`Object::Boolean(true)` and evaluate the selected branch as a statement
sequence, and any other variant panics with "not implemented". -/
def eval_expr : Expr → Except String Object
  | .Const num => .ok (.Integer num)
  | .Boolean val => .ok (.Boolean val)
  | .Pre .Bang expr =>
      match eval_expr expr with
      | .ok (.Boolean val) => .ok (.Boolean (!val))
      | .ok _ => .error "! operator only valid for boolean type"
      | .error msg => .error msg
  | .Pre .Minus expr =>
      match eval_expr expr with
      | .ok (.Integer val) => .ok (.Integer (-val))
      | .ok _ => .error "minus operator only valid for integer type"
      | .error msg => .error msg
  | .Infx left operator right =>
      match eval_expr left with
      | .error msg => .error msg
      | .ok leftVal =>
          match eval_expr right with
          | .error msg => .error msg
          | .ok rightVal => eval_infix_op operator leftVal rightVal
  | .If condition consequence alternative =>
      match eval_expr condition with
      | .error msg => .error msg
      | .ok c =>
          if c = .Boolean true then eval_statements consequence
          else eval_statements alternative
  | .Ident _ => .error "eval expr not implemented for this type"

/-- `eval_statement` from `src/eval/mod.rs`: expression statements evaluate
their expression, return statements wrap the evaluated expression in a
Return tag, and any other statement variant panics with "unsupported
statement type". -/
def eval_statement : Statement → Except String Object
  | .Expression expr => eval_expr expr
  | .Return expr =>
      match eval_expr expr with
      | .error msg => .error msg
      | .ok v => .ok (.Return v)
  | .Let _ _ => .error "unsupported statement type"

/-- The loop body of `eval_statements`: `result` is the running result
(initially `Null`); each statement's result overwrites it, and a
Return-tagged result ends the loop at once, returned without unwrapping. -/
def eval_statements_loop : Object → List Statement → Except String Object
  | result, [] => .ok result
  | _, statement :: rest =>
      match eval_statement statement with
      | .error msg => .error msg
      | .ok r => if isReturn r then .ok r else eval_statements_loop r rest

/-- `eval_statements` from `src/eval/mod.rs`: run the statement list through
the loop starting from a `Null` running result. -/
def eval_statements (statements : List Statement) : Except String Object :=
  eval_statements_loop .Null statements
end

/-- `eval_program` from `src/eval/mod.rs`: evaluate the top-level statement
sequence, then perform exactly one unwrap step: a Return-tagged result has
its payload returned, any other result is returned unchanged. -/
def eval_program (statements : List Statement) : Except String Object :=
  match eval_statements statements with
  | .error msg => .error msg
  | .ok result =>
      match result with
      | .Return res => .ok res
      | _ => .ok result

/-- `true` exactly on conditional expressions. -/
def isIf : Expr → Bool
  | .If _ _ _ => true
  | _ => false

/-- `false` exactly on a Return wrapper whose payload is itself a Return
wrapper (the nesting the spec's invariant forbids). -/
def noNestedReturn : Object → Bool
  | .Return (.Return _) => false
  | _ => true

mutual
/-- Return-safety of an expression: no return-statement anywhere inside has
a conditional as its returned expression.  Under this syntactic condition
the evaluator can never produce a nested Return wrapper. -/
def retSafeExpr : Expr → Bool
  | .Const _ => true
  | .Boolean _ => true
  | .Pre _ e => retSafeExpr e
  | .Infx l _ r => retSafeExpr l && retSafeExpr r
  | .If c cons alt => retSafeExpr c && retSafeStmts cons && retSafeStmts alt
  | .Ident _ => true

/-- Return-safety of a statement: a return statement may not return a
conditional expression, and all sub-expressions must be return-safe. -/
def retSafeStmt : Statement → Bool
  | .Expression e => retSafeExpr e
  | .Return e => !(isIf e) && retSafeExpr e
  | .Let _ _ => true

/-- Return-safety of a statement list: every statement is return-safe. -/
def retSafeStmts : List Statement → Bool
  | [] => true
  | s :: rest => retSafeStmt s && retSafeStmts rest
end

/-! ### Basic computation lemmas -/

theorem eval_statements_nil : eval_statements ([] : List Statement) = .ok .Null := by
  simp [eval_statements, eval_statements_loop]

/-- The loop body on a non-empty list never reads the incoming accumulator:
the first statement's result overwrites it. -/
theorem eval_statements_loop_acc_irrel (a b : Object) (s : Statement) (rest : List Statement) :
    eval_statements_loop a (s :: rest) = eval_statements_loop b (s :: rest) := by
  simp only [eval_statements_loop]

/-- Every successful `eval_infix_op` result is an Integer or a Boolean. -/
theorem eval_infix_op_ok_shape (op : Operator) (l r o : Object)
    (h : eval_infix_op op l r = .ok o) : isInteger o = true ∨ isBoolean o = true := by
  cases op <;> cases l <;> cases r <;>
    simp only [eval_infix_op] at h <;>
    (try split at h) <;>
    (try split at h) <;>
    (first
      | (injection h with h; subst h; simp [isInteger, isBoolean])
      | simp_all [isInteger, isBoolean])

/-- A successful evaluation of a non-conditional expression is an Integer
or a Boolean — never Null and never Return-tagged. -/
theorem eval_expr_not_if_shape (e : Expr) (hIf : isIf e = false) (o : Object)
    (h : eval_expr e = .ok o) : isInteger o = true ∨ isBoolean o = true := by
  cases e with
  | Const n => simp [eval_expr] at h; subst h; simp [isInteger]
  | Boolean b => simp [eval_expr] at h; subst h; simp [isBoolean]
  | Pre op v =>
      cases op <;>
        (simp only [eval_expr] at h
         split at h <;>
           (first
             | (simp at h; subst h; simp [isInteger, isBoolean])
             | simp at h))
  | Infx l op r =>
      simp only [eval_expr] at h
      split at h
      · exact absurd h (by simp)
      · split at h
        · exact absurd h (by simp)
        · exact eval_infix_op_ok_shape _ _ _ _ h
  | If c cons alt => simp [isIf] at hIf
  | Ident name => simp [eval_expr] at h

theorem shape_noNestedReturn (o : Object) (h : isInteger o = true ∨ isBoolean o = true) :
    noNestedReturn o = true := by
  cases o <;> simp_all [isInteger, isBoolean, noNestedReturn]

theorem shape_not_isReturn (o : Object) (h : isInteger o = true ∨ isBoolean o = true) :
    isReturn o = false := by
  cases o <;> simp_all [isInteger, isBoolean, isReturn]

theorem noNestedReturn_wrap (v : Object) :
    noNestedReturn (.Return v) = !(isReturn v) := by
  cases v <;> rfl

/-- Core invariant: on return-safe input (no return statement returns a
conditional) every value the evaluator produces — from `eval_expr`,
`eval_statements`, the statement loop, or `eval_statement` — is free of
nested Return wrappers. -/
theorem eval_retSafe_noNest :
    (∀ e, retSafeExpr e = true → ∀ o, eval_expr e = .ok o → noNestedReturn o = true) ∧
    (∀ l, retSafeStmts l = true → ∀ o, eval_statements l = .ok o → noNestedReturn o = true) ∧
    (∀ a l, retSafeStmts l = true → noNestedReturn a = true → ∀ o,
        eval_statements_loop a l = .ok o → noNestedReturn o = true) ∧
    (∀ s, retSafeStmt s = true → ∀ o, eval_statement s = .ok o → noNestedReturn o = true) := by
  apply eval_expr.mutual_induct
  -- Const
  · intro num _ o h
    simp [eval_expr] at h; subst h; simp [noNestedReturn]
  -- Boolean literal
  · intro val _ o h
    simp [eval_expr] at h; subst h; simp [noNestedReturn]
  -- Bang on a Boolean operand
  · intro expr val heval _ _ o h
    simp [eval_expr, heval] at h; subst h; simp [noNestedReturn]
  -- Bang on a non-Boolean operand
  · intro expr a hna heval _ _ o h
    simp only [eval_expr, heval] at h
    cases a with
    | Boolean b => exact absurd rfl (hna b)
    | _ => simp at h
  -- Bang where the operand evaluation fails
  · intro expr msg heval _ _ o h
    simp [eval_expr, heval] at h
  -- Minus on an Integer operand
  · intro expr val heval _ _ o h
    simp [eval_expr, heval] at h; subst h; simp [noNestedReturn]
  -- Minus on a non-Integer operand
  · intro expr a hna heval _ _ o h
    simp only [eval_expr, heval] at h
    cases a with
    | Integer n => exact absurd rfl (hna n)
    | _ => simp at h
  -- Minus where the operand evaluation fails
  · intro expr msg heval _ _ o h
    simp [eval_expr, heval] at h
  -- Infix where the left operand fails
  · intro left op right msg heval _ _ o h
    simp [eval_expr, heval] at h
  -- Infix where the right operand fails
  · intro left op right lv hl msg hr _ _ _ o h
    simp [eval_expr, hl, hr] at h
  -- Infix where both operands succeed
  · intro left op right lv hl rv hr _ _ _ o h
    simp only [eval_expr, hl, hr] at h
    exact shape_noNestedReturn o (eval_infix_op_ok_shape op lv rv o h)
  -- If where the condition fails
  · intro c cons alt msg heval _ _ o h
    simp [eval_expr, heval] at h
  -- If with a true condition
  · intro c cons alt hc _ ih2 hsafe o h
    simp only [eval_expr, hc, if_pos] at h
    simp only [retSafeExpr, Bool.and_eq_true] at hsafe
    exact ih2 hsafe.1.2 o h
  -- If with a non-true condition
  · intro c cons alt cv hc hne _ ih2 hsafe o h
    simp only [eval_expr, hc] at h
    rw [if_neg hne] at h
    simp only [retSafeExpr, Bool.and_eq_true] at hsafe
    exact ih2 hsafe.2 o h
  -- Identifier: not implemented
  · intro name _ o h
    simp [eval_expr] at h
  -- eval_statements delegates to the loop with a Null accumulator
  · intro statements ih hsafe o h
    simp only [eval_statements] at h
    exact ih hsafe rfl o h
  -- loop on the empty list returns the accumulator
  · intro result _ hacc o h
    simp [eval_statements_loop] at h; subst h; exact hacc
  -- loop where the statement fails
  · intro x statement rest msg heval _ _ _ o h
    simp [eval_statements_loop, heval] at h
  -- loop stopping at a Return-tagged result
  · intro x statement rest r heval hret ih hsafe _ o h
    simp only [eval_statements_loop, heval, hret, if_true] at h
    simp only [retSafeStmts, Bool.and_eq_true] at hsafe
    simp only [Except.ok.injEq] at h
    exact h ▸ ih hsafe.1 r heval
  -- loop continuing with the overwritten accumulator
  · intro x statement rest r heval hret ih ihloop hsafe _ o h
    simp only [eval_statements_loop, heval] at h
    rw [if_neg hret] at h
    simp only [retSafeStmts, Bool.and_eq_true] at hsafe
    exact ihloop hsafe.2 (ih hsafe.1 r heval) o h
  -- expression statement
  · intro expr ih hsafe o h
    simp only [retSafeStmt] at hsafe
    simp only [eval_statement] at h
    exact ih hsafe o h
  -- return statement whose expression fails
  · intro expr msg heval _ _ o h
    simp [eval_statement, heval] at h
  -- return statement wrapping an evaluated expression
  · intro expr v heval _ hsafe o h
    simp only [eval_statement, heval, Except.ok.injEq] at h
    simp only [retSafeStmt, Bool.and_eq_true, Bool.not_eq_true'] at hsafe
    subst h
    rw [noNestedReturn_wrap,
      shape_not_isReturn v (eval_expr_not_if_shape expr hsafe.1 v heval)]
    rfl
  -- let statement: unsupported
  · intro name value _ o h
    simp [eval_statement] at h

/-- Splitting the statement loop across an append, for a non-Return
accumulator (the only way the evaluator ever calls it). -/
theorem eval_statements_loop_append (pre : List Statement) :
    ∀ (l : List Statement) (a : Object), isReturn a = false →
    eval_statements_loop a (pre ++ l) =
      (match eval_statements_loop a pre with
       | .error m => .error m
       | .ok r => if isReturn r then .ok r else eval_statements_loop r l) := by
  induction pre with
  | nil =>
      intro l a ha
      simp [eval_statements_loop, ha]
  | cons s pre ih =>
      intro l a ha
      simp only [List.cons_append, eval_statements_loop]
      cases h : eval_statement s with
      | error m => simp
      | ok r =>
        by_cases hr : isReturn r = true
        · simp [hr]
        · simp only [if_neg hr]
          exact ih l r (by simpa using hr)

/-! ### Claims -/

/-- C1 (amended): `eval_program` performs exactly one unwrap step — a
Return-tagged sequence result has its payload returned and any other result
is returned unchanged — and for return-safe statement lists (no return
statement returns a conditional) the returned value is never Return-tagged,
so the caller receives Integer, Boolean or Null.  Unconditionally the
"never Return-tagged" part is false: a return statement returning a
conditional that itself returns makes a Return-tagged value escape. -/
theorem eval_program_unwrap_spec (stmts : List Statement) :
    (∀ v, eval_statements stmts = .ok (.Return v) → eval_program stmts = .ok v) ∧
    (∀ r, eval_statements stmts = .ok r → isReturn r = false → eval_program stmts = .ok r) ∧
    (retSafeStmts stmts = true → ∀ o, eval_program stmts = .ok o → isReturn o = false) := by
  refine ⟨?_, ?_, ?_⟩
  · intro v h
    simp [eval_program, h]
  · intro r h hret
    simp only [eval_program, h]
    cases r <;> simp_all [isReturn]
  · intro hsafe o h
    cases hres : eval_statements stmts with
    | error m => simp [eval_program, hres] at h
    | ok r =>
      have hnn := eval_retSafe_noNest.2.1 stmts hsafe r hres
      simp only [eval_program, hres] at h
      cases r with
      | Integer n => simp at h; subst h; rfl
      | Boolean b => simp at h; subst h; rfl
      | Null => simp at h; subst h; rfl
      | Return v =>
          simp only [Except.ok.injEq] at h
          subst h
          rw [noNestedReturn_wrap] at hnn
          simpa using hnn

/-- C1 counterexample: a return statement returning a conditional whose
selected branch itself returns makes `eval_program` hand a Return-tagged
value to the caller. -/
theorem eval_program_return_escape :
    eval_program
        [Statement.Return (Expr.If (Expr.Boolean true) [Statement.Return (Expr.Const 5)] [])] =
      .ok (.Return (.Integer 5)) ∧
    isReturn (.Return (.Integer 5)) = true := by
  constructor
  · simp [eval_program, eval_statements, eval_statements_loop, eval_statement, eval_expr,
      isReturn]
  · rfl

theorem eval_program_unwrap_witness :
    eval_program [Statement.Return (Expr.Const 10)] = .ok (.Integer 10) :=
  (eval_program_unwrap_spec [Statement.Return (Expr.Const 10)]).1 (.Integer 10)
    (by simp [eval_statements, eval_statements_loop, eval_statement, eval_expr, isReturn])

/-- C2 (amended): for return-safe input trees — no return statement
anywhere returns a conditional expression — no value produced by
`eval_expr`, `eval_statement` or `eval_statements` is a Return wrapper
whose payload is itself a Return wrapper.  Without that restriction the
invariant is false: wrapping the Return-tagged result of a returning
conditional nests. -/
theorem return_never_nests_retSafe :
    (∀ e, retSafeExpr e = true → ∀ o, eval_expr e = .ok o → noNestedReturn o = true) ∧
    (∀ s, retSafeStmt s = true → ∀ o, eval_statement s = .ok o → noNestedReturn o = true) ∧
    (∀ l, retSafeStmts l = true → ∀ o, eval_statements l = .ok o → noNestedReturn o = true) :=
  ⟨eval_retSafe_noNest.1, eval_retSafe_noNest.2.2.2, eval_retSafe_noNest.2.1⟩

/-- C2 counterexample: `eval_statement` on `return (if (true) ⟨return 5⟩)`
produces a Return wrapper whose payload is itself a Return wrapper. -/
theorem eval_statement_nested_return :
    eval_statement
        (Statement.Return (Expr.If (Expr.Boolean true) [Statement.Return (Expr.Const 5)] [])) =
      .ok (.Return (.Return (.Integer 5))) ∧
    noNestedReturn (.Return (.Return (.Integer 5))) = false := by
  constructor
  · simp [eval_statement, eval_expr, eval_statements, eval_statements_loop, isReturn]
  · rfl

theorem return_never_nests_retSafe_witness :
    noNestedReturn (.Return (.Integer 10)) = true :=
  return_never_nests_retSafe.2.1 (Statement.Return (Expr.Const 10))
    (by simp [retSafeStmt, retSafeExpr, isIf]) (.Return (.Integer 10))
    (by simp [eval_statement, eval_expr])

/-- C3: the consequence branch is selected iff the condition evaluates to
exactly `Boolean true`; any other condition value selects the alternative,
and a selected empty alternative evaluates to Null. -/
theorem conditional_strict_true_spec (cond : Expr) (cons alt : List Statement) (c : Object)
    (h : eval_expr cond = .ok c) :
    (c = .Boolean true → eval_expr (.If cond cons alt) = eval_statements cons) ∧
    (c ≠ .Boolean true → eval_expr (.If cond cons alt) = eval_statements alt) ∧
    (c ≠ .Boolean true → alt = [] → eval_expr (.If cond cons alt) = .ok .Null) := by
  refine ⟨?_, ?_, ?_⟩
  · intro hc
    subst hc
    simp [eval_expr, h]
  · intro hc
    simp only [eval_expr, h]
    rw [if_neg hc]
  · intro hc halt
    subst halt
    simp only [eval_expr, h]
    rw [if_neg hc]
    exact eval_statements_nil

theorem conditional_strict_true_witness :
    eval_expr (.If (.Boolean false) [Statement.Expression (Expr.Const 10)] []) = .ok .Null :=
  (conditional_strict_true_spec (.Boolean false) [Statement.Expression (Expr.Const 10)] []
      (.Boolean false) (by simp [eval_expr])).2.2 (by simp) rfl

/-- C4: statement sequences evaluate in order; a Return-tagged statement
result ends the sequence at once, unaffected by and without evaluating the
remaining statements, and is propagated without unwrapping; otherwise the
last statement's result is the sequence's result, and the empty sequence
yields Null. -/
theorem statement_sequence_spec :
    (eval_statements ([] : List Statement) = .ok .Null) ∧
    (∀ s rest v, eval_statement s = .ok (.Return v) →
      eval_statements (s :: rest) = .ok (.Return v)) ∧
    (∀ s r, eval_statement s = .ok r → isReturn r = false → eval_statements [s] = .ok r) ∧
    (∀ s r rest, eval_statement s = .ok r → isReturn r = false → rest ≠ [] →
      eval_statements (s :: rest) = eval_statements rest) := by
  refine ⟨eval_statements_nil, ?_, ?_, ?_⟩
  · intro s rest v h
    simp [eval_statements, eval_statements_loop, h, isReturn]
  · intro s r h hr
    simp only [eval_statements, eval_statements_loop, h]
    rw [if_neg (by simp [hr])]
  · intro s r rest h hr hne
    match rest with
    | s' :: rest' =>
      simp only [eval_statements, eval_statements_loop, h]
      rw [if_neg (by simp [hr])]

theorem statement_sequence_witness :
    eval_statements [Statement.Return (Expr.Const 10), Statement.Expression (Expr.Const 11)] =
      .ok (.Return (.Integer 10)) :=
  statement_sequence_spec.2.1 (Statement.Return (Expr.Const 10))
    [Statement.Expression (Expr.Const 11)] (.Integer 10)
    (by simp [eval_statement, eval_expr])

/-- `true` exactly when the two objects are both Integer or both Boolean —
the variant pairs `==`/`!=` accept. -/
def eqComparable : Object → Object → Bool
  | .Integer _, .Integer _ => true
  | .Boolean _, .Boolean _ => true
  | _, _ => false

/-- C5: `==`/`!=` on two Integers or two Booleans yields the Boolean of
structural (in)equality of the payloads; operands of differing variants
(or Null / Return-tagged operands) make the evaluation a fatal error
rather than the Boolean `false`. -/
theorem equality_same_variant_spec (l r : Expr) (lv rv : Object)
    (hl : eval_expr l = .ok lv) (hr : eval_expr r = .ok rv) :
    (∀ a b : Int, lv = .Integer a → rv = .Integer b →
      eval_expr (.Infx l .Equals r) = .ok (.Boolean (a = b)) ∧
      eval_expr (.Infx l .NotEquals r) = .ok (.Boolean (a ≠ b))) ∧
    (∀ a b : Bool, lv = .Boolean a → rv = .Boolean b →
      eval_expr (.Infx l .Equals r) = .ok (.Boolean (a = b)) ∧
      eval_expr (.Infx l .NotEquals r) = .ok (.Boolean (a ≠ b))) ∧
    (eqComparable lv rv = false →
      (∃ m, eval_expr (.Infx l .Equals r) = .error m) ∧
      (∃ m, eval_expr (.Infx l .NotEquals r) = .error m)) := by
  refine ⟨?_, ?_, ?_⟩
  · rintro a b rfl rfl
    constructor <;> simp [eval_expr, hl, hr, eval_infix_op]
  · rintro a b rfl rfl
    constructor <;> simp [eval_expr, hl, hr, eval_infix_op]
  · intro hcmp
    constructor <;>
      (simp only [eval_expr, hl, hr]
       cases lv <;> cases rv <;> simp_all [eqComparable, eval_infix_op])

theorem equality_same_variant_witness :
    eval_expr (.Infx (.Const 5) .Equals (.Const 1)) = .ok (.Boolean false) ∧
    eval_expr (.Infx (.Boolean true) .Equals (.Boolean true)) = .ok (.Boolean true) ∧
    (∃ m, eval_expr (.Infx (.Const 5) .Equals (.Boolean true)) = .error m) := by
  refine ⟨?_, ?_, ?_⟩
  · simpa using
      ((equality_same_variant_spec (.Const 5) (.Const 1) (.Integer 5) (.Integer 1)
          (by simp [eval_expr]) (by simp [eval_expr])).1 5 1 rfl rfl).1
  · simpa using
      ((equality_same_variant_spec (.Boolean true) (.Boolean true) (.Boolean true)
          (.Boolean true) (by simp [eval_expr]) (by simp [eval_expr])).2.1 true true rfl rfl).1
  · exact
      ((equality_same_variant_spec (.Const 5) (.Boolean true) (.Integer 5) (.Boolean true)
          (by simp [eval_expr]) (by simp [eval_expr])).2.2 rfl).1

/-- C6 (amended): dividing Integer operands with a nonzero divisor yields
the truncated-toward-zero quotient (`Int.tdiv`, whose magnitude is the Nat
quotient of the operand magnitudes) — except at `i32::MIN / -1`, where the
division primitive's own overflow check makes the evaluation a fatal
error in every build profile, so that pair is excluded. -/
theorem division_truncation_spec (l r : Expr) (a b : Int)
    (hl : eval_expr l = .ok (.Integer a)) (hr : eval_expr r = .ok (.Integer b))
    (hb : b ≠ 0) (hov : ¬(a = -2147483648 ∧ b = -1)) :
    eval_expr (.Infx l .Divide r) = .ok (.Integer (Int.tdiv a b)) ∧
    (Int.tdiv a b).natAbs = a.natAbs / b.natAbs := by
  constructor
  · simp only [eval_expr, hl, hr, eval_infix_op]
    rw [if_neg hb, if_neg hov]
  · exact Int.natAbs_tdiv a b

/-- C6 counterexample: at `a = -2147483648` (`i32::MIN`) and `b = -1` the
divisor is nonzero, yet the division expression does not evaluate to the
truncated quotient — the program's division primitive panics with
"attempt to divide with overflow". -/
theorem division_overflow_cex :
    eval_expr (.Infx (.Const (-2147483648)) .Divide (.Const (-1))) =
      .error "attempt to divide with overflow" ∧
    ((-1 : Int) ≠ 0) ∧
    eval_expr (.Infx (.Const (-2147483648)) .Divide (.Const (-1))) ≠
      .ok (.Integer (Int.tdiv (-2147483648) (-1))) := by
  refine ⟨?_, by norm_num, ?_⟩ <;>
    simp [eval_expr, eval_infix_op]

theorem division_truncation_witness :
    eval_expr (.Infx (.Const 5) .Divide (.Const 5)) = .ok (.Integer 1) := by
  have h := (division_truncation_spec (.Const 5) (.Const 5) 5 5
    (by simp [eval_expr]) (by simp [eval_expr]) (by norm_num) (by norm_num)).1
  simpa using h

/-- C7: every error condition — logical-not on a non-Boolean, an
arithmetic or comparison operator on a non-Integer operand, the
unimplemented identifier expression, the unsupported let statement, and
division by zero — produces a fatal error, and a statement error aborts
the whole program evaluation: the remaining statements are never reached
and no partial result is produced. -/
theorem fatal_error_spec :
    (∀ e v, eval_expr e = .ok v → isBoolean v = false →
      ∃ m, eval_expr (.Pre .Bang e) = .error m) ∧
    (∀ e v, eval_expr e = .ok v → isInteger v = false →
      ∃ m, eval_expr (.Pre .Minus e) = .error m) ∧
    (∀ op lv rv, op ≠ Operator.Equals → op ≠ Operator.NotEquals →
      (isInteger lv = false ∨ isInteger rv = false) →
      ∃ m, eval_infix_op op lv rv = .error m) ∧
    (∀ name, ∃ m, eval_expr (.Ident name) = .error m) ∧
    (∀ name value, ∃ m, eval_statement (.Let name value) = .error m) ∧
    (∀ a, ∃ m, eval_infix_op .Divide (.Integer a) (.Integer 0) = .error m) ∧
    (∀ s rest msg, eval_statement s = .error msg →
      eval_statements (s :: rest) = .error msg ∧ eval_program (s :: rest) = .error msg) ∧
    (∀ pre s rest msg r, eval_statements pre = .ok r → isReturn r = false →
      eval_statement s = .error msg →
      eval_program (pre ++ s :: rest) = .error msg) := by
  refine ⟨?_, ?_, ?_, ?_, ?_, ?_, ?_, ?_⟩
  · intro e v h hb
    simp only [eval_expr, h]
    cases v <;> simp_all [isBoolean]
  · intro e v h hi
    simp only [eval_expr, h]
    cases v <;> simp_all [isInteger]
  · intro op lv rv hne1 hne2 hmix
    cases op <;> cases lv <;> cases rv <;> simp_all [eval_infix_op, isInteger]
  · intro name
    simp [eval_expr]
  · intro name value
    simp [eval_statement]
  · intro a
    simp [eval_infix_op]
  · intro s rest msg h
    constructor
    · simp [eval_statements, eval_statements_loop, h]
    · simp [eval_program, eval_statements, eval_statements_loop, h]
  · intro pre s rest msg r hpre hr h
    have habort : eval_statements (pre ++ s :: rest) = .error msg := by
      simp only [eval_statements] at hpre ⊢
      rw [eval_statements_loop_append pre (s :: rest) .Null rfl, hpre]
      simp only []
      rw [if_neg (by simp [hr])]
      simp [eval_statements_loop, h]
    simp [eval_program, habort]

theorem fatal_error_witness :
    eval_program [Statement.Expression (Expr.Const 9),
        Statement.Expression (Expr.Ident "x"), Statement.Expression (Expr.Const 1)] =
      .error "eval expr not implemented for this type" := by
  have h := fatal_error_spec.2.2.2.2.2.2.2 [Statement.Expression (Expr.Const 9)]
    (Statement.Expression (Expr.Ident "x")) [Statement.Expression (Expr.Const 1)]
    "eval expr not implemented for this type" (.Integer 9)
    (by simp [eval_statements, eval_statements_loop, eval_statement, eval_expr, isReturn])
    rfl
    (by simp [eval_statement, eval_expr])
  simpa using h

/-- C8: logical-not is involutive on Boolean literals and arithmetic
negation is involutive on Integer literals. -/
theorem involution_spec :
    (∀ b : Bool, eval_expr (.Pre .Bang (.Pre .Bang (.Boolean b))) = .ok (.Boolean b)) ∧
    (∀ n : Int, eval_expr (.Pre .Minus (.Pre .Minus (.Const n))) = .ok (.Integer n)) := by
  constructor
  · intro b
    simp [eval_expr]
  · intro n
    simp [eval_expr]

/-- C9: a conditional whose condition evaluates to exactly `Boolean true`
and whose consequence statement sequence is empty evaluates to Null, the
same Null outcome the spec states for an empty selected alternative. -/
theorem if_true_empty_consequence_null (cond : Expr) (alt : List Statement)
    (h : eval_expr cond = .ok (.Boolean true)) :
    eval_expr (.If cond [] alt) = .ok .Null := by
  simp [eval_expr, h, eval_statements, eval_statements_loop]

theorem if_true_empty_consequence_null_witness :
    eval_expr (.If (.Boolean true) [] [Statement.Expression (Expr.Const 10)]) = .ok .Null :=
  if_true_empty_consequence_null (.Boolean true) [Statement.Expression (Expr.Const 10)]
    (by simp [eval_expr])

/-- C10: a successful `eval_expr` result for any non-conditional
expression is an Integer or a Boolean — never Null and never
Return-tagged; Null or Return-tagged values can arise only from a
conditional's selected branch. -/
theorem non_conditional_expr_shape (e : Expr) (hIf : isIf e = false) (o : Object)
    (h : eval_expr e = .ok o) :
    ((∃ n, o = .Integer n) ∨ (∃ b, o = .Boolean b)) ∧ o ≠ .Null ∧ isReturn o = false := by
  have hs := eval_expr_not_if_shape e hIf o h
  refine ⟨?_, ?_, shape_not_isReturn o hs⟩
  · rcases hs with hi | hb
    · left
      cases o <;> simp_all [isInteger]
    · right
      cases o <;> simp_all [isBoolean]
  · rcases hs with hi | hb <;> (cases o <;> simp_all [isInteger, isBoolean])

theorem non_conditional_expr_shape_witness :
    ((∃ n, (Object.Integer 5) = .Integer n) ∨ (∃ b, (Object.Integer 5) = .Boolean b)) ∧
      (Object.Integer 5) ≠ .Null ∧ isReturn (Object.Integer 5) = false :=
  non_conditional_expr_shape (.Const 5) rfl (.Integer 5) (by simp [eval_expr])

end Monkey
